import Mathlib

/-!
Shallow embedding of the PRU simulation engine core (lattice gravity solvers,
fixed-timestep scheduler, energy diagnostics, emergent-structure rules),
translated from the Rust sources under `src/`, together with theorems settling
the specification claims.  Floating-point scalars are modelled as exact reals
(or rationals where the code only adds, subtracts, multiplies and compares),
machine integers as naturals.
-/

namespace PRU

/-! ## Tick scheduler (`src/app.rs`, `SimulationState` / `advance_simulation_time`) -/

/-- Model of `SimulationState` (src/app.rs lines 10-24).  The `f32` fields are
embedded as exact rationals; the scheduler only adds, subtracts, multiplies and
compares them. -/
structure SimulationState where
  running : Bool
  time_scale : ℚ
  tick : ℕ
  dt : ℚ
  accumulated_time : ℚ
  simulation_time : ℚ
  deriving DecidableEq, Repr

/-- Model of `SimulationState::default` (src/app.rs lines 26-37). -/
def SimulationState.default : SimulationState :=
  { running := true
    time_scale := 1
    tick := 0
    dt := 1 / 60
    accumulated_time := 0
    simulation_time := 0 }

/-- The `while self.accumulated_time >= self.dt` loop of
`advance_simulation_time` (src/app.rs lines 81-85), unrolled with an explicit
fuel bound so the recursion is structural.  Returns the state after at most
`fuel` loop iterations; any fuel at least the actual iteration count yields the
loop's exit state (the theorems quantify over sufficient fuel). -/
def tickLoop (s : SimulationState) : ℕ → SimulationState
  | 0 => s
  | fuel + 1 =>
    if s.dt ≤ s.accumulated_time then
      tickLoop
        { s with
          accumulated_time := s.accumulated_time - s.dt
          tick := s.tick + 1
          simulation_time := s.simulation_time + s.dt }
        fuel
    else s

/-- Model of `advance_simulation_time` (src/app.rs lines 75-86): if not running, do
nothing; otherwise accumulate `delta * time_scale` and run the tick loop. -/
def advance_simulation_time (s : SimulationState) (delta : ℚ) (fuel : ℕ) :
    SimulationState :=
  if s.running = false then s
  else
    tickLoop { s with accumulated_time := s.accumulated_time + delta * s.time_scale } fuel

/-! ## Formation cadence gating (`src/astro/formation.rs`) -/

/-- Model of `FormationSettings` (src/astro/formation.rs lines 14-23).  Thresholds are
real-valued; the cadence fields are the only ones the gating logic reads. -/
structure FormationSettings where
  star_density_threshold : ℝ
  black_hole_density_threshold : ℝ
  black_hole_curvature_threshold : ℝ
  galaxy_density_threshold : ℝ
  formation_interval : ℕ
  galaxy_refresh_interval : ℕ
  region_size : ℕ

/-- Model of `FormationSchedule` (src/astro/formation.rs lines 39-43).  The struct has
exactly two last-run fields: one shared by star and black-hole formation, one
for galaxy refresh.  There is no separate black-hole tick. -/
structure FormationSchedule where
  last_star_tick : ℕ
  last_galaxy_tick : ℕ
  deriving DecidableEq, Repr

/-- Cadence gate of `spawn_stars_from_density` (src/astro/formation.rs lines
56-59): returns whether the rule body runs this frame, and the updated
schedule (`last_star_tick` is set to the current tick when the rule runs). -/
def starGate (s : FormationSchedule) (tick interval : ℕ) :
    Bool × FormationSchedule :=
  if tick - s.last_star_tick < interval then (false, s)
  else (true, { s with last_star_tick := tick })

/-- Cadence gate of `spawn_black_holes_from_density` (src/astro/formation.rs
lines 120-123): the system takes the schedule immutably and compares the
current tick against `last_star_tick` — star formation's field — updating
nothing. -/
def blackHoleGate (s : FormationSchedule) (tick interval : ℕ) : Bool :=
  if tick - s.last_star_tick < interval then false else true

/-- Cadence gate of `identify_galaxies` (src/astro/formation.rs lines
180-183). -/
def galaxyGate (s : FormationSchedule) (tick interval : ℕ) :
    Bool × FormationSchedule :=
  if tick - s.last_galaxy_tick < interval then (false, s)
  else (true, { s with last_galaxy_tick := tick })

/-- The black-hole gate as the specification describes it: a rule with its own
`last_run_tick`, executing exactly when `current_tick - last_run_tick ≥
interval`.  This definition follows the spec's words (refinement comparison);
the code has no such per-rule state. -/
def blackHoleGateClaimed (last_bh_tick tick interval : ℕ) : Bool :=
  if tick - last_bh_tick < interval then false else true

/-- A state whose accumulated time is below `dt` exits the scheduler loop
unchanged, for any fuel. -/
theorem tickLoop_of_lt (fuel : ℕ) (s : SimulationState)
    (h : ¬ s.dt ≤ s.accumulated_time) : tickLoop s fuel = s := by
  cases fuel <;> simp [tickLoop, h]

/-- Claim C5: the tick scheduler started from a zero remainder with
`dt = 1/60` and `time_scale = 1`, fed a single wall-clock delta of `2/60`
seconds, performs exactly 2 simulation steps (the tick counter advances from 0
to 2) and leaves an accumulated remainder of exactly 0.  Quantified over any
fuel bound at least 2 for the loop unrolling. -/
theorem tick_scheduler_two_steps (fuel : ℕ) :
    advance_simulation_time SimulationState.default (2 / 60) (fuel + 2) =
      { SimulationState.default with
        tick := 2
        accumulated_time := 0
        simulation_time := 1 / 30 } := by
  rw [advance_simulation_time]
  norm_num [SimulationState.default]
  rw [tickLoop]
  norm_num
  rw [tickLoop]
  norm_num
  rw [tickLoop_of_lt]
  norm_num

/-- Claim C2 (counterexample): at tick 8 with interval 8 and a fresh schedule,
star formation runs and writes `last_star_tick := 8`; the black-hole gate,
evaluated next in the same frame, then reads `8 - 8 = 0 < 8` and does not run —
whereas a black-hole rule gated by its own last-run tick (still 0, the rule
never ran) would execute, as `8 - 0 ≥ 8`. -/
theorem bh_gate_counterexample :
    blackHoleGate (starGate ⟨0, 0⟩ 8 8).2 8 8 = false ∧
      blackHoleGateClaimed 0 8 8 = true := by
  decide

/-- Claim C2 (amended): star formation and galaxy identification each maintain
their own last-run tick (`last_star_tick`, `last_galaxy_tick`), execute exactly
when `current_tick - last_run_tick ≥ interval`, and write the current tick into
their field exactly when they run.  Black-hole formation has no last-run tick
of its own: its gate reads star formation's `last_star_tick` and updates
nothing, so it is not independent — run after star formation in the same frame
(the systems are chained), it never executes for any positive interval. -/
theorem formation_gating (s : FormationSchedule) (tick interval : ℕ) :
    ((starGate s tick interval).1 = true ↔
        interval ≤ tick - s.last_star_tick) ∧
    ((starGate s tick interval).1 = true →
        (starGate s tick interval).2 =
          { s with last_star_tick := tick }) ∧
    ((starGate s tick interval).1 = false → (starGate s tick interval).2 = s) ∧
    ((galaxyGate s tick interval).1 = true ↔
        interval ≤ tick - s.last_galaxy_tick) ∧
    ((galaxyGate s tick interval).1 = true →
        (galaxyGate s tick interval).2 =
          { s with last_galaxy_tick := tick }) ∧
    ((galaxyGate s tick interval).1 = false →
        (galaxyGate s tick interval).2 = s) ∧
    (blackHoleGate s tick interval = true ↔
        interval ≤ tick - s.last_star_tick) ∧
    (1 ≤ interval →
        blackHoleGate (starGate s tick interval).2 tick interval = false) := by
  refine ⟨?_, ?_, ?_, ?_, ?_, ?_, ?_, ?_⟩ <;>
    simp only [starGate, galaxyGate, blackHoleGate] <;>
    split <;> simp_all <;> omega

/-- Witness for `formation_gating` at a concrete schedule, tick and interval:
after star formation runs at tick 5 with interval 3, the chained black-hole
gate is closed. -/
theorem formation_gating_witness :
    1 ≤ 3 ∧ blackHoleGate (starGate ⟨0, 0⟩ 5 3).2 5 3 = false :=
  ⟨by decide, (formation_gating ⟨0, 0⟩ 5 3).2.2.2.2.2.2.2 (by decide)⟩

/-! ## World-space vectors

Bevy's `Vec3` of `f32` components, embedded with exact real components. -/

noncomputable section

open scoped Classical

/-- A 3-component world-space vector (Bevy `Vec3`, `f32` fields embedded as
reals). -/
@[ext]
structure Vec3 where
  x : ℝ
  y : ℝ
  z : ℝ

instance : Zero Vec3 := ⟨⟨0, 0, 0⟩⟩

instance : Add Vec3 := ⟨fun a b => ⟨a.x + b.x, a.y + b.y, a.z + b.z⟩⟩

instance : Sub Vec3 := ⟨fun a b => ⟨a.x - b.x, a.y - b.y, a.z - b.z⟩⟩

instance : Neg Vec3 := ⟨fun a => ⟨-a.x, -a.y, -a.z⟩⟩

instance : SMul ℝ Vec3 := ⟨fun c a => ⟨c * a.x, c * a.y, c * a.z⟩⟩

@[simp] theorem Vec3.zero_x : (0 : Vec3).x = 0 := rfl

@[simp] theorem Vec3.zero_y : (0 : Vec3).y = 0 := rfl

@[simp] theorem Vec3.zero_z : (0 : Vec3).z = 0 := rfl

@[simp] theorem Vec3.add_x (a b : Vec3) : (a + b).x = a.x + b.x := rfl

@[simp] theorem Vec3.add_y (a b : Vec3) : (a + b).y = a.y + b.y := rfl

@[simp] theorem Vec3.add_z (a b : Vec3) : (a + b).z = a.z + b.z := rfl

@[simp] theorem Vec3.sub_x (a b : Vec3) : (a - b).x = a.x - b.x := rfl

@[simp] theorem Vec3.sub_y (a b : Vec3) : (a - b).y = a.y - b.y := rfl

@[simp] theorem Vec3.sub_z (a b : Vec3) : (a - b).z = a.z - b.z := rfl

@[simp] theorem Vec3.neg_x (a : Vec3) : (-a).x = -a.x := rfl

@[simp] theorem Vec3.neg_y (a : Vec3) : (-a).y = -a.y := rfl

@[simp] theorem Vec3.neg_z (a : Vec3) : (-a).z = -a.z := rfl

@[simp] theorem Vec3.smul_x (c : ℝ) (a : Vec3) : (c • a).x = c * a.x := rfl

@[simp] theorem Vec3.smul_y (c : ℝ) (a : Vec3) : (c • a).y = c * a.y := rfl

@[simp] theorem Vec3.smul_z (c : ℝ) (a : Vec3) : (c • a).z = c * a.z := rfl

/-- Bevy `Vec3::length_squared`. -/
def Vec3.length_squared (v : Vec3) : ℝ := v.x * v.x + v.y * v.y + v.z * v.z

/-- Bevy `Vec3::length`. -/
def Vec3.length (v : Vec3) : ℝ := Real.sqrt v.length_squared

theorem Vec3.smul_smul (c d : ℝ) (v : Vec3) : c • d • v = (c * d) • v := by
  ext <;> simp <;> ring

theorem Vec3.length_squared_nonneg (v : Vec3) : 0 ≤ v.length_squared := by
  have := mul_self_nonneg v.x
  have := mul_self_nonneg v.y
  have := mul_self_nonneg v.z
  unfold Vec3.length_squared
  linarith

theorem Vec3.length_squared_eq_zero (v : Vec3) (h : v.length_squared = 0) :
    v = 0 := by
  unfold Vec3.length_squared at h
  have hx := mul_self_nonneg v.x
  have hy := mul_self_nonneg v.y
  have hz := mul_self_nonneg v.z
  ext <;> simp <;> nlinarith

/-! ## Gravity parameters and the naive pairwise solver (`src/pru/gravity.rs`) -/

/-- Model of `GravityMode` (src/pru/gravity.rs lines 15-20). -/
inductive GravityMode where
  | NaiveNBody
  | RelationalLattice
  deriving DecidableEq

/-- Model of `GravityParams` (src/pru/gravity.rs lines 24-37). -/
structure GravityParams where
  g_effective : ℝ
  softening_length : ℝ
  damping : ℝ
  max_acceleration : ℝ
  enabled : Bool
  mode : GravityMode

/-- Model of `GravityParams::default` (src/pru/gravity.rs lines 39-50). -/
def GravityParams.default : GravityParams :=
  { g_effective := 0.6
    softening_length := 0.25
    damping := 0.01
    max_acceleration := 120
    enabled := true
    mode := GravityMode.RelationalLattice }

/-- The per-pair body of the `NaiveNBody` branch of `simulate_gravity_step`
(src/pru/gravity.rs lines 96-116).  Returns the acceleration contribution
*added* to cell a and the contribution *added* to cell b (the code subtracts
`accel_b`, so the second component carries the minus sign).  A skipped pair
(`dist2 <= 0` or non-positive mass product) contributes zero to both. -/
def naivePairAccel (params : GravityParams) (posA posB : Vec3)
    (massA massB : ℝ) : Vec3 × Vec3 :=
  let displacement := posB - posA
  let dist2 := displacement.length_squared +
    params.softening_length * params.softening_length
  if dist2 ≤ 0 then (0, 0)
  else
    let inv_dist := (Real.sqrt dist2)⁻¹
    let inv_dist3 := inv_dist * inv_dist * inv_dist
    let mass_product := massA * massB
    if mass_product ≤ 0 then (0, 0)
    else
      let force_mag := params.g_effective * mass_product * inv_dist3
      let direction := inv_dist • displacement
      ((force_mag / massA) • direction, -((force_mag / massB) • direction))

/-- The per-pair acceleration as claim C1 states it: a softened inverse-square
magnitude `g_effective * mass_j / (|d|^2 + softening^2)` along the true unit
vector `d / |d|`.  This definition follows the claim's words (refinement
comparison against `naivePairAccel`). -/
def claimedNaiveAccel (params : GravityParams) (posA posB : Vec3)
    (massB : ℝ) : Vec3 :=
  let d := posB - posA
  (params.g_effective * massB /
      (d.length_squared + params.softening_length * params.softening_length)) •
    ((d.length)⁻¹ • d)

@[simp] theorem Vec3.smul_zero_vec (c : ℝ) : c • (0 : Vec3) = 0 := by
  ext <;> simp

@[simp] theorem Vec3.neg_zero_vec : -(0 : Vec3) = 0 := by
  ext <;> simp

theorem sqrt_four : Real.sqrt 4 = 2 := by
  rw [show (4 : ℝ) = 2 ^ 2 by norm_num]
  exact Real.sqrt_sq (by norm_num)

/-- Gravity parameters of the two-body diagnostic scenarios: `g_effective = 1`
and `softening_length = 0`, other fields as in the code's defaults. -/
def twoBodyParams : GravityParams :=
  { g_effective := 1
    softening_length := 0
    damping := 0.01
    max_acceleration := 120
    enabled := true
    mode := GravityMode.NaiveNBody }

/-- Claim C1 (counterexample): for two unit masses 2 world units apart with
zero softening and `g_effective = 1`, the solver adds `(1/8, 0, 0)` to the
first cell — `g * m_j * d / (|d|^2)^2` — while the claimed softened
inverse-square form `g * m_j * (d/|d|) / |d|^2` gives `(1/4, 0, 0)`. -/
theorem naive_accel_claim_counterexample :
    (naivePairAccel twoBodyParams ⟨0, 0, 0⟩ ⟨2, 0, 0⟩ 1 1).1 ≠
      claimedNaiveAccel twoBodyParams ⟨0, 0, 0⟩ ⟨2, 0, 0⟩ 1 := by
  intro h
  have hx := congrArg Vec3.x h
  simp only [naivePairAccel, claimedNaiveAccel, twoBodyParams,
    Vec3.length_squared, Vec3.length, Vec3.sub_x, Vec3.sub_y, Vec3.sub_z] at hx
  norm_num [sqrt_four] at hx

/-- Claim C1 (amended): for a pair with positive masses, the acceleration
contribution added to cell i equals
`(g_effective * mass_j / (|d|^2 + softening^2)^2) • d` with `d = pos_j - pos_i`
— magnitude `g_effective * mass_j * |d| / (|d|^2 + softening^2)^2` along the
unit vector from i to j: one softened-distance power more than the claimed
softened inverse-square form. -/
theorem naive_accel_formula (params : GravityParams) (posA posB : Vec3)
    (massA massB : ℝ) (hA : 0 < massA) (hB : 0 < massB) :
    (naivePairAccel params posA posB massA massB).1 =
      (params.g_effective * massB /
          (((posB - posA).length_squared +
              params.softening_length * params.softening_length) ^ 2)) •
        (posB - posA) := by
  unfold naivePairAccel
  by_cases hle : (posB - posA).length_squared +
      params.softening_length * params.softening_length ≤ 0
  · have hls := Vec3.length_squared_nonneg (posB - posA)
    have hsq := mul_self_nonneg params.softening_length
    have hd0 : (posB - posA) = 0 :=
      Vec3.length_squared_eq_zero _ (by linarith)
    rw [if_pos hle, hd0, Vec3.smul_zero_vec]
  · have hpos : 0 < (posB - posA).length_squared +
        params.softening_length * params.softening_length := not_le.mp hle
    have hprod : ¬ massA * massB ≤ 0 := not_le.mpr (mul_pos hA hB)
    simp only [if_neg hle, if_neg hprod]
    rw [Vec3.smul_smul]
    congr 1
    have hsqrt : Real.sqrt ((posB - posA).length_squared +
        params.softening_length * params.softening_length) *
        Real.sqrt ((posB - posA).length_squared +
          params.softening_length * params.softening_length) =
        (posB - posA).length_squared +
          params.softening_length * params.softening_length :=
      Real.mul_self_sqrt hpos.le
    have hspos : 0 < Real.sqrt ((posB - posA).length_squared +
        params.softening_length * params.softening_length) :=
      Real.sqrt_pos.mpr hpos
    field_simp
    linear_combination (-(params.g_effective * massA * massB *
      ((posB - posA).length_squared +
        params.softening_length * params.softening_length))) * hsqrt

/-- Witness for `naive_accel_formula`: two unit masses 2 apart, zero
softening, `g_effective = 1` — the contribution to the first cell is
`(1/8, 0, 0)`. -/
theorem naive_accel_formula_witness :
    (0 : ℝ) < 1 ∧
      (naivePairAccel twoBodyParams ⟨0, 0, 0⟩ ⟨2, 0, 0⟩ 1 1).1 =
        (twoBodyParams.g_effective * 1 /
            ((((⟨2, 0, 0⟩ : Vec3) - ⟨0, 0, 0⟩).length_squared +
                twoBodyParams.softening_length *
                  twoBodyParams.softening_length) ^ 2)) •
          ((⟨2, 0, 0⟩ : Vec3) - ⟨0, 0, 0⟩) :=
  ⟨by norm_num,
    naive_accel_formula twoBodyParams ⟨0, 0, 0⟩ ⟨2, 0, 0⟩ 1 1
      (by norm_num) (by norm_num)⟩

/-- Claim C7: for every processed pair, the per-pair contributions satisfy
Newton's third law in the exact-arithmetic model:
`mass_i • accel_i = -(mass_j • accel_j)` (equal and opposite forces; skipped
pairs contribute zero to both sides). -/
theorem naive_third_law (params : GravityParams) (posA posB : Vec3)
    (massA massB : ℝ) :
    massA • (naivePairAccel params posA posB massA massB).1 =
      -(massB • (naivePairAccel params posA posB massA massB).2) := by
  unfold naivePairAccel
  by_cases h1 : (posB - posA).length_squared +
      params.softening_length * params.softening_length ≤ 0
  · simp [h1]
  · by_cases h2 : massA * massB ≤ 0
    · simp [h1, h2]
    · have hA : massA ≠ 0 := by
        intro h
        exact h2 (by rw [h, zero_mul])
      have hB : massB ≠ 0 := by
        intro h
        exact h2 (by rw [h, mul_zero])
      simp only [if_neg h1, if_neg h2]
      have core : ∀ (f : ℝ) (v : Vec3),
          massA • ((f / massA) • v) = -(massB • -((f / massB) • v)) := by
        intro f v
        ext <;> simp <;> field_simp <;> ring
      exact core _ _

/-! ## Energy diagnostics (`src/pru/gravity.rs`, `compute_energy_metrics`) -/

/-- Model of `SimulationEnergy` (src/pru/gravity.rs lines 53-60); `f64` fields embedded
as reals, the two `Option<f64>` fields as `Option ℝ`. -/
structure SimulationEnergy where
  kinetic : ℝ
  potential : ℝ
  total : ℝ
  initial_total : Option ℝ
  relative_drift : Option ℝ

/-- Model of `SimulationEnergy::default` (derived `Default`): zeroes and `None`s. -/
def SimulationEnergy.default : SimulationEnergy :=
  { kinetic := 0
    potential := 0
    total := 0
    initial_total := none
    relative_drift := none }

/-- Sum of `f a b` over the unordered pairs of a list, each pair visited once
with `a` strictly before `b` — the order Bevy's `iter_combinations` yields. -/
def sumPairs {α : Type} (f : α → α → ℝ) : List α → ℝ
  | [] => 0
  | a :: rest => rest.foldl (fun s b => s + f a b) 0 + sumPairs f rest

/-- Model of `compute_energy_metrics` (src/pru/gravity.rs lines 160-199).  Each cell is
`(position, mass, velocity)`.  Kinetic energy sums `0.5 * m * |v|^2`; potential
sums `-g * m_a * m_b / sqrt(|d|^2 + softening^2)` over unordered pairs with a
positive-distance guard; `initial_total` is captured the first time
`|total| > 1e-9`, and `relative_drift` is recomputed whenever the captured
initial total is nonnegligible. -/
def compute_energy_metrics (params : GravityParams)
    (cells : List (Vec3 × ℝ × Vec3)) (energy : SimulationEnergy) :
    SimulationEnergy :=
  let kinetic := cells.foldl
    (fun k c => k + 0.5 * c.2.1 * (c.2.2).length_squared) 0
  let potential := sumPairs (fun a b =>
    let displacement := b.1 - a.1
    let distance := Real.sqrt (displacement.length_squared +
      params.softening_length * params.softening_length)
    if 0 < distance then -params.g_effective * a.2.1 * b.2.1 / distance else 0)
    cells
  let total := kinetic + potential
  let initial_total :=
    if energy.initial_total = none ∧ (1e-9 : ℝ) < |total| then some total
    else energy.initial_total
  let relative_drift :=
    match initial_total with
    | some initial =>
      if (1e-9 : ℝ) < |initial| then some ((total - initial) / initial)
      else energy.relative_drift
    | none => energy.relative_drift
  { kinetic := kinetic
    potential := potential
    total := total
    initial_total := initial_total
    relative_drift := relative_drift }

/-- Claim C8: for two unit masses at rest 2 world units apart with zero
softening and `g_effective = 1`, one diagnostics pass from the default energy
state computes kinetic 0, potential -1/2, total -1/2, and captures
`initial_total = -1/2` (with the drift against it recomputed as 0). -/
theorem energy_two_body_scenario :
    compute_energy_metrics twoBodyParams
        [(⟨0, 0, 0⟩, 1, ⟨0, 0, 0⟩), (⟨2, 0, 0⟩, 1, ⟨0, 0, 0⟩)]
        SimulationEnergy.default =
      { kinetic := 0
        potential := -(1 / 2)
        total := -(1 / 2)
        initial_total := some (-(1 / 2))
        relative_drift := some 0 } := by
  have hls : Vec3.length_squared ⟨2, 0, 0⟩ = 4 := by
    simp [Vec3.length_squared]
    norm_num
  have habs : |(1 / 2 : ℝ)| = 1 / 2 := abs_of_pos (by norm_num)
  have habsn : |(-(1 / 2) : ℝ)| = 1 / 2 := by rw [abs_neg]; exact habs
  simp only [compute_energy_metrics, sumPairs, SimulationEnergy.default,
    twoBodyParams, List.foldl, Vec3.length_squared, Vec3.sub_x, Vec3.sub_y,
    Vec3.sub_z]
  norm_num [sqrt_four, habs, habsn]

/-! ## Relational lattice solver (`src/pru/gravity_relational.rs`) -/

/-- Bevy `UVec3`: unsigned lattice coordinates. -/
structure UVec3 where
  x : ℕ
  y : ℕ
  z : ℕ
  deriving DecidableEq, Repr

/-- Bevy `IVec3`: signed lattice offsets. -/
structure IVec3 where
  x : ℤ
  y : ℤ
  z : ℤ
  deriving DecidableEq, Repr

instance : Add IVec3 := ⟨fun a b => ⟨a.x + b.x, a.y + b.y, a.z + b.z⟩⟩

/-- Bevy `UVec3::as_ivec3`. -/
def UVec3.as_ivec3 (c : UVec3) : IVec3 := ⟨c.x, c.y, c.z⟩

/-- Bevy `IVec3::as_uvec3` (componentwise cast; negative components saturate the
way Rust's `as u32` never arises here because the code guards bounds first).
-/
def IVec3.as_uvec3 (n : IVec3) : UVec3 := ⟨n.x.toNat, n.y.toNat, n.z.toNat⟩

/-- Bevy `IVec3::as_vec3`. -/
def IVec3.as_vec3 (o : IVec3) : Vec3 := ⟨(o.x : ℝ), (o.y : ℝ), (o.z : ℝ)⟩

/-- Model of `NEIGHBOR_OFFSETS` (src/pru/gravity_relational.rs lines 13-20): the six
axis-aligned unit lattice jumps. -/
def NEIGHBOR_OFFSETS : List IVec3 :=
  [⟨1, 0, 0⟩, ⟨-1, 0, 0⟩, ⟨0, 1, 0⟩, ⟨0, -1, 0⟩, ⟨0, 0, 1⟩, ⟨0, 0, -1⟩]

/-- Bevy `Vec3::normalize_or_zero`: `v / |v|`, and the zero vector for `v = 0`
(in the real model `(0 : ℝ)⁻¹ = 0` gives exactly that). -/
def Vec3.normalize_or_zero (v : Vec3) : Vec3 := (v.length)⁻¹ • v

/-- Model of `RelationalKernel` (src/pru/gravity_relational.rs lines 28-32). -/
structure RelationalKernel where
  offsets : List IVec3
  weights : List Vec3

/-- Model of `RelationalKernel::new` (src/pru/gravity_relational.rs lines 34-51): one
weight `normalize_or_zero(offset * spacing) * (max(|offset * spacing|^2, 1e-6))^(-3/2)`
per fixed neighbor offset. -/
def RelationalKernel.new (spacing : ℝ) : RelationalKernel :=
  { offsets := NEIGHBOR_OFFSETS
    weights := NEIGHBOR_OFFSETS.map fun offset =>
      let world_offset := spacing • offset.as_vec3
      let distance_sq := max world_offset.length_squared (1e-6 : ℝ)
      let inv_r3 := distance_sq ^ (-(3 : ℝ) / 2)
      inv_r3 • world_offset.normalize_or_zero }

/-- The dense-lookup index closure `idx` of `apply_relational_gravity`
(src/pru/gravity_relational.rs lines 87-89):
`coord.x * dims.y * dims.z + coord.y * dims.z + coord.z`. -/
def lidx (dims : UVec3) (coord : UVec3) : ℕ :=
  coord.x * dims.y * dims.z + coord.y * dims.z + coord.z

/-- The mass-field write loop of `apply_relational_gravity` (lines 91-93):
write each cell's mass at its lattice index. -/
def writeMasses (dims : UVec3) (f : List ℝ) : List (UVec3 × ℝ) → List ℝ
  | [] => f
  | cm :: rest => writeMasses dims (f.set (lidx dims cm.1) cm.2) rest

/-- The dense mass buffer `mass_field` (lines 84-93): a zeroed vector of the
lattice volume, then one write per `(grid_coords, mass)` datum. -/
def buildMassField (dims : UVec3) (cell_data : List (UVec3 × ℝ)) : List ℝ :=
  writeMasses dims (List.replicate (dims.x * dims.y * dims.z) 0) cell_data

/-- The out-of-bounds skip condition of the neighbor loop (lines 100-106). -/
def oob (dims : UVec3) (n : IVec3) : Bool :=
  decide (n.x < 0 ∨ n.y < 0 ∨ n.z < 0 ∨
    (dims.x : ℤ) ≤ n.x ∨ (dims.y : ℤ) ≤ n.y ∨ (dims.z : ℤ) ≤ n.z)

/-- The neighbor-accumulation loop of `apply_relational_gravity` (lines
96-117) for one cell: walk the zipped `(offset, weight)` pairs, skip
out-of-bounds neighbors, read the neighbor mass from the dense buffer (a read
out of the buffer's range is a fault, modelled as `none`), and accumulate
`weight • (g_effective * neighbor_mass * softened_gain)` with
`softened_gain = 1 / (1 + max(softening_length, 0))`. -/
def cellAccelGo (params : GravityParams) (dims : UVec3) (mass_field : List ℝ)
    (coords : UVec3) : List (IVec3 × Vec3) → Vec3 → Option Vec3
  | [], a => some a
  | ow :: rest, a =>
    let neighbor := coords.as_ivec3 + ow.1
    if oob dims neighbor then cellAccelGo params dims mass_field coords rest a
    else
      match mass_field[lidx dims neighbor.as_uvec3]? with
      | none => none
      | some neighbor_mass =>
        cellAccelGo params dims mass_field coords rest
          (a + (params.g_effective * neighbor_mass *
            (1 + max params.softening_length 0)⁻¹) • ow.2)

/-- Per-cell acceleration computed by `apply_relational_gravity`: the neighbor
loop over `kernel.offsets.zip(kernel.weights)` starting from a zero
accumulator. -/
def cellAccel (params : GravityParams) (dims : UVec3)
    (kernel : RelationalKernel) (mass_field : List ℝ) (coords : UVec3) :
    Option Vec3 :=
  cellAccelGo params dims mass_field coords (kernel.offsets.zip kernel.weights) 0

/-- The same accumulation restricted to the in-bounds neighbors, with total
(getD) reads — the sum over a cell's in-bounds neighbors alone. -/
def cellAccelInBoundsGo (params : GravityParams) (dims : UVec3)
    (mass_field : List ℝ) (coords : UVec3) :
    List (IVec3 × Vec3) → Vec3 → Vec3
  | [], a => a
  | ow :: rest, a =>
    if oob dims (coords.as_ivec3 + ow.1) then
      cellAccelInBoundsGo params dims mass_field coords rest a
    else
      cellAccelInBoundsGo params dims mass_field coords rest
        (a + (params.g_effective *
          mass_field.getD (lidx dims (coords.as_ivec3 + ow.1).as_uvec3) 0 *
          (1 + max params.softening_length 0)⁻¹) • ow.2)

/-- Sum of the in-bounds neighbor contributions of one cell. -/
def cellAccelInBounds (params : GravityParams) (dims : UVec3)
    (kernel : RelationalKernel) (mass_field : List ℝ) (coords : UVec3) :
    Vec3 :=
  cellAccelInBoundsGo params dims mass_field coords
    (kernel.offsets.zip kernel.weights) 0

theorem encode_lt (X Y Z x y z : ℕ) (hx : x < X) (hy : y < Y) (hz : z < Z) :
    x * Y * Z + y * Z + z < X * Y * Z := by
  calc x * Y * Z + y * Z + z < x * Y * Z + y * Z + Z := by omega
    _ = x * Y * Z + (y + 1) * Z := by ring
    _ ≤ x * Y * Z + Y * Z := Nat.add_le_add_left (mul_le_mul_right' hy Z) _
    _ = (x + 1) * (Y * Z) := by ring
    _ ≤ X * (Y * Z) := mul_le_mul_right' hx (Y * Z)
    _ = X * Y * Z := by ring

theorem encode_inj_aux (q1 r1 q2 r2 D : ℕ) (h1 : r1 < D) (h2 : r2 < D)
    (h : q1 * D + r1 = q2 * D + r2) : q1 = q2 ∧ r1 = r2 := by
  have hD : 0 < D := lt_of_le_of_lt (Nat.zero_le r1) h1
  have hr : r1 = r2 := by
    have e1 : (D * q1 + r1) % D = r1 % D := Nat.mul_add_mod D q1 r1
    have e2 : (D * q2 + r2) % D = r2 % D := Nat.mul_add_mod D q2 r2
    have h' : D * q1 + r1 = D * q2 + r2 := by
      rw [mul_comm D q1, mul_comm D q2]; exact h
    rw [Nat.mod_eq_of_lt h1] at e1
    rw [Nat.mod_eq_of_lt h2] at e2
    rw [← e1, h', e2]
  refine ⟨?_, hr⟩
  have hq : q1 * D = q2 * D := by omega
  exact Nat.eq_of_mul_eq_mul_right hD hq

/-- The index map `lidx` is injective on in-bounds coordinates. -/
theorem lidx_inj (dims a b : UVec3)
    (hax : a.x < dims.x) (hay : a.y < dims.y) (haz : a.z < dims.z)
    (hbx : b.x < dims.x) (hby : b.y < dims.y) (hbz : b.z < dims.z)
    (h : lidx dims a = lidx dims b) : a = b := by
  unfold lidx at h
  have hra : a.y * dims.z + a.z < dims.y * dims.z := by
    have := encode_lt 1 dims.y dims.z 0 a.y a.z (by omega) hay haz
    simpa using this
  have hrb : b.y * dims.z + b.z < dims.y * dims.z := by
    have := encode_lt 1 dims.y dims.z 0 b.y b.z (by omega) hby hbz
    simpa using this
  have h' : a.x * (dims.y * dims.z) + (a.y * dims.z + a.z) =
      b.x * (dims.y * dims.z) + (b.y * dims.z + b.z) := by
    rw [← mul_assoc, ← mul_assoc]; omega
  obtain ⟨hx1, hrest⟩ := encode_inj_aux _ _ _ _ _ hra hrb h'
  obtain ⟨hy1, hz1⟩ := encode_inj_aux _ _ _ _ _ haz hbz hrest
  cases a; cases b
  simp_all

theorem oob_eq_false_iff (dims : UVec3) (n : IVec3) :
    oob dims n = false ↔
      0 ≤ n.x ∧ 0 ≤ n.y ∧ 0 ≤ n.z ∧
      n.x < (dims.x : ℤ) ∧ n.y < (dims.y : ℤ) ∧ n.z < (dims.z : ℤ) := by
  simp only [oob, decide_eq_false_iff_not]
  push_neg
  omega

theorem as_ivec3_as_uvec3 (n : IVec3) (hx : 0 ≤ n.x) (hy : 0 ≤ n.y)
    (hz : 0 ≤ n.z) : (n.as_uvec3).as_ivec3 = n := by
  cases n
  simp_all [IVec3.as_uvec3, UVec3.as_ivec3, Int.toNat_of_nonneg]

/-- The lattice index of any in-bounds neighbor is below the lattice volume. -/
theorem lidx_lt_volume (dims : UVec3) (n : IVec3) (h : oob dims n = false) :
    lidx dims n.as_uvec3 < dims.x * dims.y * dims.z := by
  rw [oob_eq_false_iff] at h
  obtain ⟨h1, h2, h3, h4, h5, h6⟩ := h
  refine encode_lt _ _ _ _ _ _ ?_ ?_ ?_ <;> simp [IVec3.as_uvec3] <;> omega

theorem writeMasses_length (dims : UVec3) :
    ∀ (l : List (UVec3 × ℝ)) (f : List ℝ),
      (writeMasses dims f l).length = f.length := by
  intro l
  induction l with
  | nil => intro f; rfl
  | cons cm rest ih =>
    intro f
    rw [writeMasses, ih]
    simp

theorem buildMassField_length (dims : UVec3) (cell_data : List (UVec3 × ℝ)) :
    (buildMassField dims cell_data).length = dims.x * dims.y * dims.z := by
  rw [buildMassField, writeMasses_length]
  simp

theorem writeMasses_append (dims : UVec3) (l1 l2 : List (UVec3 × ℝ)) :
    ∀ f, writeMasses dims f (l1 ++ l2) =
      writeMasses dims (writeMasses dims f l1) l2 := by
  induction l1 with
  | nil => intro f; rfl
  | cons cm rest ih => intro f; rw [List.cons_append, writeMasses, writeMasses, ih]

/-- Writing the same cell data into two buffers that agree away from index
`i0` (and have equal lengths) preserves both properties. -/
theorem writeMasses_congr (dims : UVec3) (i0 : ℕ) :
    ∀ (l : List (UVec3 × ℝ)) (f1 f2 : List ℝ),
      f1.length = f2.length → (∀ j, j ≠ i0 → f1[j]? = f2[j]?) →
      (writeMasses dims f1 l).length = (writeMasses dims f2 l).length ∧
        ∀ j, j ≠ i0 → (writeMasses dims f1 l)[j]? = (writeMasses dims f2 l)[j]? := by
  intro l
  induction l with
  | nil => intro f1 f2 hlen hagree; exact ⟨hlen, hagree⟩
  | cons cm rest ih =>
    intro f1 f2 hlen hagree
    rw [writeMasses, writeMasses]
    refine ih _ _ (by simp [hlen]) ?_
    intro j hj
    by_cases hji : lidx dims cm.1 = j
    · subst hji
      rw [List.getElem?_set_self', List.getElem?_set_self']
      by_cases hlt : lidx dims cm.1 < f1.length
      · rw [List.getElem?_eq_getElem hlt,
          List.getElem?_eq_getElem (by omega : lidx dims cm.1 < f2.length)]
        rfl
      · rw [List.getElem?_eq_none_iff.mpr (by omega),
          List.getElem?_eq_none_iff.mpr (by omega)]
    · rw [List.getElem?_set_ne hji, List.getElem?_set_ne hji]
      exact hagree j hj

/-- The neighbor loop reads the mass buffer only at the in-bounds neighbor
indices: two buffers agreeing there produce identical results. -/
theorem cellAccelGo_congr (params : GravityParams) (dims : UVec3)
    (coords : UVec3) (mf1 mf2 : List ℝ) :
    ∀ (l : List (IVec3 × Vec3)) (a : Vec3),
      (∀ ow ∈ l, oob dims (coords.as_ivec3 + ow.1) = false →
        mf1[lidx dims (coords.as_ivec3 + ow.1).as_uvec3]? =
          mf2[lidx dims (coords.as_ivec3 + ow.1).as_uvec3]?) →
      cellAccelGo params dims mf1 coords l a =
        cellAccelGo params dims mf2 coords l a := by
  intro l
  induction l with
  | nil => intro a _; rfl
  | cons ow rest ih =>
    intro a h
    rw [cellAccelGo, cellAccelGo]
    by_cases hb : oob dims (coords.as_ivec3 + ow.1) = true
    · simp only [hb, if_true]
      exact ih a fun o ho => h o (List.mem_cons_of_mem _ ho)
    · have hb' : oob dims (coords.as_ivec3 + ow.1) = false := by
        simpa using hb
      simp only [hb', if_false, Bool.false_eq_true]
      rw [h ow (List.mem_cons_self ow rest) hb']
      cases mf2[lidx dims (coords.as_ivec3 + ow.1).as_uvec3]? with
      | none => rfl
      | some v => exact ih _ fun o ho => h o (List.mem_cons_of_mem _ ho)

/-- Claim C4: the RelationalLattice solver is strictly local.  First part: any
two lattice mass assignments whose built mass buffers agree at the cell's
in-bounds axis neighbors (same geometry, kernel and gravity parameters) give
the cell the same acceleration.  Second part: perturbing the mass of any
in-bounds cell that is not one of the cell's neighbors never changes the
cell's acceleration. -/
theorem relational_locality (params : GravityParams) (dims : UVec3)
    (kernel : RelationalKernel) (coords : UVec3) :
    (∀ d1 d2 : List (UVec3 × ℝ),
      (∀ o ∈ kernel.offsets, oob dims (coords.as_ivec3 + o) = false →
        (buildMassField dims d1)[lidx dims (coords.as_ivec3 + o).as_uvec3]? =
          (buildMassField dims d2)[lidx dims (coords.as_ivec3 + o).as_uvec3]?) →
      cellAccel params dims kernel (buildMassField dims d1) coords =
        cellAccel params dims kernel (buildMassField dims d2) coords) ∧
    (∀ (pre post : List (UVec3 × ℝ)) (c : UVec3) (m m' : ℝ),
      c.x < dims.x → c.y < dims.y → c.z < dims.z →
      (∀ o ∈ kernel.offsets, c.as_ivec3 ≠ coords.as_ivec3 + o) →
      cellAccel params dims kernel
          (buildMassField dims (pre ++ (c, m) :: post)) coords =
        cellAccel params dims kernel
          (buildMassField dims (pre ++ (c, m') :: post)) coords) := by
  have main : ∀ d1 d2 : List (UVec3 × ℝ),
      (∀ o ∈ kernel.offsets, oob dims (coords.as_ivec3 + o) = false →
        (buildMassField dims d1)[lidx dims (coords.as_ivec3 + o).as_uvec3]? =
          (buildMassField dims d2)[lidx dims (coords.as_ivec3 + o).as_uvec3]?) →
      cellAccel params dims kernel (buildMassField dims d1) coords =
        cellAccel params dims kernel (buildMassField dims d2) coords := by
    intro d1 d2 h
    unfold cellAccel
    refine cellAccelGo_congr params dims coords _ _ _ 0 ?_
    intro ow how hoob
    exact h ow.1 (List.of_mem_zip how).1 hoob
  refine ⟨main, ?_⟩
  intro pre post c m m' hcx hcy hcz hnonnbr
  refine main _ _ ?_
  intro o ho hoob
  set i0 := lidx dims c with hi0
  have hagree : ∀ j, j ≠ i0 →
      (buildMassField dims (pre ++ (c, m) :: post))[j]? =
        (buildMassField dims (pre ++ (c, m') :: post))[j]? := by
    intro j hj
    unfold buildMassField
    rw [writeMasses_append, writeMasses_append]
    rw [show ((c, m) :: post) = [(c, m)] ++ post by rfl,
      show ((c, m') :: post) = [(c, m')] ++ post by rfl,
      writeMasses_append, writeMasses_append]
    refine (writeMasses_congr dims i0 post _ _ ?_ ?_).2 j hj
    · simp [writeMasses]
    · intro j' hj'
      show ((writeMasses dims _ pre).set i0 m)[j']? =
        ((writeMasses dims _ pre).set i0 m')[j']?
      rw [List.getElem?_set_ne (fun h => hj' h.symm),
        List.getElem?_set_ne (fun h => hj' h.symm)]
  refine hagree _ ?_
  intro heq
  rw [oob_eq_false_iff] at hoob
  obtain ⟨h1, h2, h3, h4, h5, h6⟩ := hoob
  have hnb : (coords.as_ivec3 + o).as_uvec3 = c := by
    refine lidx_inj dims _ _ ?_ ?_ ?_ hcx hcy hcz heq <;>
      simp [IVec3.as_uvec3] <;> omega
  have : c.as_ivec3 = coords.as_ivec3 + o := by
    rw [← hnb]
    exact as_ivec3_as_uvec3 _ h1 h2 h3
  exact hnonnbr o ho this

/-- Witness for `relational_locality`: in a 2×2×2 lattice, changing the mass
written for cell (1,1,1) — not an axis neighbor of (0,0,0) — from 5 to 7
leaves the acceleration of cell (0,0,0) under the real spacing-1.4 kernel
unchanged. -/
theorem relational_locality_witness :
    (1 : ℕ) < 2 ∧
      cellAccel GravityParams.default ⟨2, 2, 2⟩ (RelationalKernel.new 1.4)
          (buildMassField ⟨2, 2, 2⟩
            ([(⟨0, 0, 0⟩, 1)] ++ (⟨1, 1, 1⟩, 5) :: [(⟨1, 0, 0⟩, 2)]))
          ⟨0, 0, 0⟩ =
        cellAccel GravityParams.default ⟨2, 2, 2⟩ (RelationalKernel.new 1.4)
          (buildMassField ⟨2, 2, 2⟩
            ([(⟨0, 0, 0⟩, 1)] ++ (⟨1, 1, 1⟩, 7) :: [(⟨1, 0, 0⟩, 2)]))
          ⟨0, 0, 0⟩ :=
  ⟨by norm_num,
    (relational_locality GravityParams.default ⟨2, 2, 2⟩
        (RelationalKernel.new 1.4) ⟨0, 0, 0⟩).2
      [(⟨0, 0, 0⟩, 1)] [(⟨1, 0, 0⟩, 2)] ⟨1, 1, 1⟩ 5 7
      (by norm_num) (by norm_num) (by norm_num)
      (by intro o ho; fin_cases ho <;> decide)⟩

/-- Claim C9: with a mass buffer of the lattice volume's length, the neighbor
loop never faults — every performed read is in range — and the cell's
acceleration is exactly the sum over its in-bounds neighbors alone
(out-of-bounds neighbors are skipped, contributing zero). -/
theorem cellAccelGo_safe (params : GravityParams) (dims : UVec3)
    (mass_field : List ℝ) (coords : UVec3)
    (h : mass_field.length = dims.x * dims.y * dims.z) :
    ∀ (l : List (IVec3 × Vec3)) (a : Vec3),
      cellAccelGo params dims mass_field coords l a =
        some (cellAccelInBoundsGo params dims mass_field coords l a) := by
  intro l
  induction l with
  | nil => intro a; rfl
  | cons ow rest ih =>
    intro a
    rw [cellAccelGo, cellAccelInBoundsGo]
    by_cases hb : oob dims (coords.as_ivec3 + ow.1) = true
    · simp only [hb, if_true]
      exact ih a
    · have hb' : oob dims (coords.as_ivec3 + ow.1) = false := by simpa using hb
      simp only [hb', Bool.false_eq_true, if_false]
      have hlt : lidx dims (coords.as_ivec3 + ow.1).as_uvec3 <
          mass_field.length := by
        rw [h]
        exact lidx_lt_volume dims _ hb'
      rw [List.getElem?_eq_getElem hlt, List.getD_eq_getElem mass_field 0 hlt]
      exact ih _

/-- Claim C9: with a mass buffer of the lattice volume's length, the neighbor
loop never faults — every performed read is in range — and the cell's
acceleration is exactly the sum over its in-bounds neighbors alone
(out-of-bounds neighbors are skipped, contributing zero). -/
theorem relational_bounds_safe (params : GravityParams) (dims : UVec3)
    (kernel : RelationalKernel) (mass_field : List ℝ) (coords : UVec3)
    (h : mass_field.length = dims.x * dims.y * dims.z) :
    cellAccel params dims kernel mass_field coords =
      some (cellAccelInBounds params dims kernel mass_field coords) := by
  unfold cellAccel cellAccelInBounds
  exact cellAccelGo_safe params dims mass_field coords h _ 0

/-- Witness for `relational_bounds_safe`: the single cell of a 1×1×1 lattice
(all six neighbors out of bounds) with buffer `[5]` — the solver returns a
value (no fault) equal to the in-bounds sum. -/
theorem relational_bounds_safe_witness :
    ([(5 : ℝ)].length = 1 * 1 * 1) ∧
      cellAccel GravityParams.default ⟨1, 1, 1⟩ (RelationalKernel.new 1.4)
          [(5 : ℝ)] ⟨0, 0, 0⟩ =
        some (cellAccelInBounds GravityParams.default ⟨1, 1, 1⟩
          (RelationalKernel.new 1.4) [(5 : ℝ)] ⟨0, 0, 0⟩) :=
  ⟨by simp,
    relational_bounds_safe GravityParams.default ⟨1, 1, 1⟩
      (RelationalKernel.new 1.4) [(5 : ℝ)] ⟨0, 0, 0⟩ (by simp)⟩

/-! ## Star formation (`src/astro/formation.rs`, `spawn_stars_from_density`) -/

/-- Model of `Star` (src/astro/star.rs). -/
structure Star where
  mass : ℝ
  radius : ℝ
  temperature : ℝ
  luminosity : ℝ

/-- Rust `f32::clamp(lo, hi)` for `lo ≤ hi`. -/
def clampR (v lo hi : ℝ) : ℝ := min (max v lo) hi

/-- The star components derived from a cell's `local_density`
(src/astro/formation.rs lines 76-78, 98-103). -/
def starFromDensity (local_density : ℝ) : Star :=
  { mass := local_density
    radius := clampR (local_density * 0.08) 0.05 0.6
    temperature := 4000 + local_density * 3000
    luminosity := local_density * 2 }

@[simp] theorem Vec3.sub_self (v : Vec3) : v - v = 0 := by
  ext <;> simp

@[simp] theorem Vec3.length_zero : (0 : Vec3).length = 0 := by
  simp [Vec3.length, Vec3.length_squared]

/-- The per-cell loop of `spawn_stars_from_density` (src/astro/formation.rs
lines 64-106): each cell is `(position, local_density)`.  Skip a cell below
the density threshold; skip it when any *pre-existing* star lies within the
avoidance radius — Bevy's deferred `commands.spawn` means stars spawned
earlier in the same pass are invisible to this check, which consults only the
`existing` snapshot; otherwise spawn one star at the cell position. -/
def spawnStarsGo (threshold avoidance_radius : ℝ) (existing : List Vec3) :
    List (Vec3 × ℝ) → List (Vec3 × Star)
  | [] => []
  | c :: rest =>
    if c.2 < threshold then spawnStarsGo threshold avoidance_radius existing rest
    else if ∃ t ∈ existing, (t - c.1).length < avoidance_radius then
      spawnStarsGo threshold avoidance_radius existing rest
    else
      (c.1, starFromDensity c.2) ::
        spawnStarsGo threshold avoidance_radius existing rest

/-- One `spawn_stars_from_density` pass (lines 56-106, cadence gate aside):
`avoidance_radius = spacing * 0.8`. -/
def spawn_stars_from_density (threshold spacing : ℝ) (existing : List Vec3)
    (cells : List (Vec3 × ℝ)) : List (Vec3 × Star) :=
  spawnStarsGo threshold (spacing * 0.8) existing cells

/-- A pass whose pre-existing star list is empty just filters the cells by
density and spawns one star per qualifying cell. -/
theorem spawnStarsGo_empty (threshold avoidance_radius : ℝ) :
    ∀ cells : List (Vec3 × ℝ),
      spawnStarsGo threshold avoidance_radius [] cells =
        (cells.filter fun c => !decide (c.2 < threshold)).map
          fun c => (c.1, starFromDensity c.2) := by
  intro cells
  induction cells with
  | nil => rfl
  | cons c rest ih =>
    rw [spawnStarsGo]
    by_cases hc : c.2 < threshold
    · rw [if_pos hc, ih, List.filter_cons]
      simp [hc]
    · rw [if_neg hc, if_neg (by simp), ih, List.filter_cons]
      simp [hc]

/-- A pass over cells each of which is below threshold or blocked by a star
within the avoidance radius spawns nothing. -/
theorem spawnStarsGo_blocked (threshold avoidance_radius : ℝ)
    (existing : List Vec3) :
    ∀ cells : List (Vec3 × ℝ),
      (∀ c ∈ cells, c.2 < threshold ∨
        ∃ t ∈ existing, (t - c.1).length < avoidance_radius) →
      spawnStarsGo threshold avoidance_radius existing cells = [] := by
  intro cells
  induction cells with
  | nil => intro _; rfl
  | cons c rest ih =>
    intro h
    rw [spawnStarsGo]
    rcases h c (List.mem_cons_self c rest) with hc | hc
    · rw [if_pos hc]
      exact ih fun d hd => h d (List.mem_cons_of_mem _ hd)
    · by_cases hthr : c.2 < threshold
      · rw [if_pos hthr]
        exact ih fun d hd => h d (List.mem_cons_of_mem _ hd)
      · rw [if_neg hthr, if_pos hc]
        exact ih fun d hd => h d (List.mem_cons_of_mem _ hd)

/-- Claim C3 (counterexample): with threshold 1.8 and spacing 1.4 (avoidance
radius 1.12), a single pass over two density-2.0 cells 0.1 apart and no
pre-existing stars spawns a star at *both* cells — the avoidance check sees
only pre-pass stars — so the second cell does not "create none"; a second
pass on the unchanged field adds nothing, leaving two stars 0.1 < 1.12 apart,
refuting the never-two-stars-within-the-avoidance-radius claim as well. -/
theorem star_avoidance_counterexample :
    (spawn_stars_from_density 1.8 1.4 []
        [(⟨0, 0, 0⟩, 2), (⟨0.1, 0, 0⟩, 2)]).map Prod.fst =
      [⟨0, 0, 0⟩, ⟨0.1, 0, 0⟩] ∧
    spawn_stars_from_density 1.8 1.4
        ((spawn_stars_from_density 1.8 1.4 []
          [(⟨0, 0, 0⟩, 2), (⟨0.1, 0, 0⟩, 2)]).map Prod.fst)
        [(⟨0, 0, 0⟩, 2), (⟨0.1, 0, 0⟩, 2)] = [] ∧
    ((⟨0.1, 0, 0⟩ : Vec3) - ⟨0, 0, 0⟩).length < 1.4 * 0.8 := by
  have hdist : ((⟨0.1, 0, 0⟩ : Vec3) - ⟨0, 0, 0⟩).length = 0.1 := by
    simp only [Vec3.length, Vec3.length_squared, Vec3.sub_x, Vec3.sub_y,
      Vec3.sub_z]
    rw [show ((0.1 : ℝ) - 0) * (0.1 - 0) + (0 - 0) * (0 - 0) +
        (0 - 0) * (0 - 0) = (0.1 : ℝ) ^ 2 by norm_num]
    exact Real.sqrt_sq (by norm_num)
  have hpass1 : (spawn_stars_from_density 1.8 1.4 []
      [(⟨0, 0, 0⟩, 2), (⟨0.1, 0, 0⟩, 2)]).map Prod.fst =
      [⟨0, 0, 0⟩, ⟨0.1, 0, 0⟩] := by
    rw [spawn_stars_from_density, spawnStarsGo_empty]
    norm_num [List.filter]
  refine ⟨hpass1, ?_, by rw [hdist]; norm_num⟩
  rw [hpass1, spawn_stars_from_density]
  refine spawnStarsGo_blocked _ _ _ _ ?_
  intro c hc
  right
  rcases List.mem_cons.mp hc with h | h
  · refine ⟨⟨0, 0, 0⟩, by simp, ?_⟩
    rw [h]
    simp
    norm_num
  · rw [List.mem_singleton] at h
    refine ⟨⟨0.1, 0, 0⟩, by simp, ?_⟩
    rw [h]
    simp
    norm_num

/-- Claim C3 (amended): a pass over a single cell with density at or above the
threshold and no pre-existing star within the avoidance radius
(`0.8 * spacing`) creates exactly one star.  Within one pass the avoidance
check consults only the stars existing before the pass (spawns are deferred),
so from an empty star field a pass spawns exactly one star per
density-qualifying cell — a second identical cell 0.1 units away also spawns.
A second pass on the unchanged field creates no star (each qualifying cell is
blocked by its own pass-one star at distance 0), and when the cells are
pairwise at least the avoidance radius apart no two spawned stars lie within
the avoidance radius of each other. -/
theorem star_formation_amended (threshold spacing : ℝ) :
    (∀ (pos : Vec3) (d : ℝ) (existing : List Vec3),
      ¬ d < threshold →
      (∀ t ∈ existing, ¬ (t - pos).length < spacing * 0.8) →
      spawn_stars_from_density threshold spacing existing [(pos, d)] =
        [(pos, starFromDensity d)]) ∧
    (∀ cells : List (Vec3 × ℝ),
      spawn_stars_from_density threshold spacing [] cells =
        (cells.filter fun c => !decide (c.2 < threshold)).map
          fun c => (c.1, starFromDensity c.2)) ∧
    (∀ cells : List (Vec3 × ℝ), 0 < spacing →
      spawn_stars_from_density threshold spacing
        ((spawn_stars_from_density threshold spacing [] cells).map Prod.fst)
        cells = []) ∧
    (∀ cells : List (Vec3 × ℝ),
      cells.Pairwise (fun a b => spacing * 0.8 ≤ (a.1 - b.1).length) →
      ((spawn_stars_from_density threshold spacing [] cells).map
        Prod.fst).Pairwise fun p q => spacing * 0.8 ≤ (p - q).length) := by
  refine ⟨?_, ?_, ?_, ?_⟩
  · intro pos d existing hd hblock
    rw [spawn_stars_from_density, spawnStarsGo, if_neg hd,
      if_neg (fun hex => by
        obtain ⟨t, ht, hlt⟩ := hex
        exact hblock t ht hlt)]
    rfl
  · intro cells
    rw [spawn_stars_from_density, spawnStarsGo_empty]
  · intro cells hs
    rw [spawn_stars_from_density]
    refine spawnStarsGo_blocked _ _ _ _ ?_
    intro c hc
    by_cases hthr : c.2 < threshold
    · exact Or.inl hthr
    · refine Or.inr ⟨c.1, ?_, ?_⟩
      · rw [spawn_stars_from_density, spawnStarsGo_empty, List.map_map]
        exact List.mem_map.mpr
          ⟨c, List.mem_filter.mpr ⟨hc, by simp [hthr]⟩, rfl⟩
      · simp only [Vec3.sub_self, Vec3.length_zero]
        positivity
  · intro cells hpw
    rw [spawn_stars_from_density, spawnStarsGo_empty, List.map_map]
    exact List.pairwise_map.mpr (hpw.filter _)

/-- Witness for `star_formation_amended`: threshold 1.8, spacing 1.4, a single
density-2.0 cell at the origin with no existing stars spawns exactly one
star. -/
theorem star_formation_amended_witness :
    ¬ (2 : ℝ) < 1.8 ∧
      spawn_stars_from_density 1.8 1.4 [] [(⟨0, 0, 0⟩, 2)] =
        [(⟨0, 0, 0⟩, starFromDensity 2)] :=
  ⟨by norm_num,
    (star_formation_amended 1.8 1.4).1 ⟨0, 0, 0⟩ 2 [] (by norm_num) (by simp)⟩

/-! ## Galaxy identification (`src/astro/formation.rs`, `identify_galaxies`,
and `src/astro/galaxy.rs`) -/

/-- Model of `Galaxy` (src/astro/galaxy.rs). -/
structure Galaxy where
  id : ℕ
  total_mass : ℝ
  radius : ℝ
  num_stars : ℕ
  center : Vec3
  region_key : UVec3

/-- The region bucket key `grid_coords / region_size` (componentwise integer
division, `region_size` floored to at least 1; src/astro/formation.rs lines
186, 192-196). -/
def regionKey (region_size : ℕ) (coords : UVec3) : UVec3 :=
  ⟨coords.x / max region_size 1, coords.y / max region_size 1,
    coords.z / max region_size 1⟩

/-- The region-accumulation map entry update (lines 197-199): add the cell's
density to the bucket's mass and `density • position` to its weighted
centroid. -/
def upsertRegion (key : UVec3) (d : ℝ) (wp : Vec3) :
    List (UVec3 × ℝ × Vec3) → List (UVec3 × ℝ × Vec3)
  | [] => [(key, d, wp)]
  | r :: rest =>
    if r.1 = key then (r.1, r.2.1 + d, r.2.2 + wp) :: rest
    else r :: upsertRegion key d wp rest

/-- The bucketing loop of `identify_galaxies` (lines 185-200): cells are
`(grid_coords, position, local_density)`; cells below the galaxy density
threshold are skipped. -/
def buildRegions (threshold : ℝ) (region_size : ℕ)
    (cells : List (UVec3 × Vec3 × ℝ)) : List (UVec3 × ℝ × Vec3) :=
  cells.foldl
    (fun regions c =>
      if c.2.2 < threshold then regions
      else upsertRegion (regionKey region_size c.1) c.2.2 (c.2.2 • c.2.1)
        regions)
    []

/-- Rust `HashMap::remove` on the association-list model: return the value stored
under the key, if any, and the map without that entry. -/
def removeRegion (k : UVec3) :
    List (UVec3 × ℝ × Vec3) → Option (ℝ × Vec3) × List (UVec3 × ℝ × Vec3)
  | [] => (none, [])
  | r :: rest =>
    if r.1 = k then (some r.2, rest)
    else
      let p := removeRegion k rest
      (p.1, r :: p.2)

/-- Stars within `radius` of `center` (lines 210-213, 259-262). -/
def countStarsWithin (stars : List Vec3) (center : Vec3) (radius : ℝ) : ℕ :=
  stars.countP fun t => decide ((t - center).length < radius)

/-- The per-galaxy body of the update loop of `identify_galaxies` (lines
203-223): if the galaxy's region survived, refresh mass, center, radius and
star count from the bucket (consuming it); otherwise decay mass and radius by
the factor 0.9 — the galaxy is never removed. -/
def galaxyUpdateOne (spacing : ℝ) (stars : List Vec3)
    (regions : List (UVec3 × ℝ × Vec3)) (g : Galaxy) :
    Galaxy × List (UVec3 × ℝ × Vec3) :=
  match removeRegion g.region_key regions with
  | (some (mass, weighted_pos), rest) =>
    let center := (max mass (1e-3 : ℝ))⁻¹ • weighted_pos
    let radius := clampR (mass * 0.05) spacing (spacing * 8)
    ({ g with
        total_mass := mass
        center := center
        radius := radius
        num_stars := countStarsWithin stars center radius }, rest)
  | (none, rest) =>
    ({ g with total_mass := g.total_mass * 0.9, radius := g.radius * 0.9 },
      rest)

/-- The update loop over the existing galaxies, threading the shrinking
region map. -/
def galaxyUpdatePass (spacing : ℝ) (stars : List Vec3) :
    List (UVec3 × ℝ × Vec3) → List Galaxy →
    List Galaxy × List (UVec3 × ℝ × Vec3)
  | regions, [] => ([], regions)
  | regions, g :: gs =>
    let p := galaxyUpdateOne spacing stars regions g
    let q := galaxyUpdatePass spacing stars p.2 gs
    (p.1 :: q.1, q.2)

/-- The spawn loop over the surviving unmatched regions (lines 228-268):
regions with accumulated mass below `3 *` the density threshold are skipped;
each spawned galaxy takes the next monotonically increasing id. -/
def galaxySpawnPass (threshold spacing : ℝ) (stars : List Vec3) :
    List (UVec3 × ℝ × Vec3) → ℕ → List Galaxy × ℕ
  | [], counter => ([], counter)
  | r :: rest, counter =>
    if r.2.1 < threshold * 3 then
      galaxySpawnPass threshold spacing stars rest counter
    else
      let center := (max r.2.1 (1e-3 : ℝ))⁻¹ • r.2.2
      let radius := clampR (r.2.1 * 0.05) spacing (spacing * 8)
      let p := galaxySpawnPass threshold spacing stars rest (counter + 1)
      ({ id := counter
         total_mass := r.2.1
         radius := radius
         num_stars := countStarsWithin stars center radius
         center := center
         region_key := r.1 } :: p.1, p.2)

/-- One `identify_galaxies` refresh (cadence gate aside): bucket the dense
cells, update or decay the existing galaxies in place, then spawn galaxies
for the remaining heavy regions.  Returns the managed galaxy collection and
the id counter. -/
def identify_galaxies (threshold : ℝ) (region_size : ℕ) (spacing : ℝ)
    (cells : List (UVec3 × Vec3 × ℝ)) (stars : List Vec3)
    (galaxies : List Galaxy) (counter : ℕ) : List Galaxy × ℕ :=
  let regions := buildRegions threshold region_size cells
  let u := galaxyUpdatePass spacing stars regions galaxies
  let s := galaxySpawnPass threshold spacing stars u.2 counter
  (u.1 ++ s.1, s.2)

theorem removeRegion_not_mem (k : UVec3) :
    ∀ regions : List (UVec3 × ℝ × Vec3),
      k ∉ regions.map (fun r => r.1) →
      removeRegion k regions = (none, regions) := by
  intro regions
  induction regions with
  | nil => intro _; rfl
  | cons r rest ih =>
    intro h
    rw [List.map_cons, List.mem_cons] at h
    push_neg at h
    rw [removeRegion, if_neg (fun he => h.1 he.symm), ih h.2]

theorem removeRegion_sublist (k : UVec3) :
    ∀ regions : List (UVec3 × ℝ × Vec3),
      (removeRegion k regions).2.Sublist regions := by
  intro regions
  induction regions with
  | nil => exact List.Sublist.refl _
  | cons r rest ih =>
    rw [removeRegion]
    by_cases h : r.1 = k
    · rw [if_pos h]
      exact List.sublist_cons_self r rest
    · rw [if_neg h]
      exact List.Sublist.cons₂ r ih

/-- Whichever branch runs, the update body hands the loop the map left by the
`remove` call. -/
theorem galaxyUpdateOne_snd (spacing : ℝ) (stars : List Vec3)
    (regions : List (UVec3 × ℝ × Vec3)) (g : Galaxy) :
    (galaxyUpdateOne spacing stars regions g).2 =
      (removeRegion g.region_key regions).2 := by
  rw [galaxyUpdateOne]
  rcases h : removeRegion g.region_key regions with ⟨v, rest⟩
  cases v with
  | none => rfl
  | some mv =>
    rcases mv with ⟨m, w⟩
    rfl

theorem galaxyUpdatePass_length (spacing : ℝ) (stars : List Vec3) :
    ∀ (gs : List Galaxy) (regions : List (UVec3 × ℝ × Vec3)),
      (galaxyUpdatePass spacing stars regions gs).1.length = gs.length := by
  intro gs
  induction gs with
  | nil => intro _; rfl
  | cons g rest ih => intro regions; rw [galaxyUpdatePass]; simp [ih]

/-- A galaxy whose key has no region is decayed in place by the update
loop. -/
theorem galaxyUpdatePass_decay (spacing : ℝ) (stars : List Vec3) :
    ∀ (gs : List Galaxy) (regions : List (UVec3 × ℝ × Vec3)) (k : ℕ)
      (g : Galaxy),
      gs[k]? = some g →
      g.region_key ∉ regions.map (fun r => r.1) →
      (galaxyUpdatePass spacing stars regions gs).1[k]? =
        some { g with
          total_mass := g.total_mass * 0.9
          radius := g.radius * 0.9 } := by
  intro gs
  induction gs with
  | nil => intro regions k g hget; simp at hget
  | cons g0 rest ih =>
    intro regions k g hget hmiss
    match k with
    | 0 =>
      rw [List.getElem?_cons_zero, Option.some_inj] at hget
      subst hget
      rw [galaxyUpdatePass]
      have h1 : (galaxyUpdateOne spacing stars regions g0).1 =
          { g0 with
            total_mass := g0.total_mass * 0.9
            radius := g0.radius * 0.9 } := by
        rw [galaxyUpdateOne, removeRegion_not_mem g0.region_key regions hmiss]
      simp [h1]
    | k' + 1 =>
      rw [List.getElem?_cons_succ] at hget
      rw [galaxyUpdatePass]
      simp only [List.getElem?_cons_succ]
      refine ih _ k' g hget ?_
      intro hmem
      rw [galaxyUpdateOne_snd] at hmem
      have hsub := ((removeRegion_sublist g0.region_key regions).map
        (fun r => r.1)).subset
      exact hmiss (hsub hmem)

/-- Claim C6: on a galaxy-refresh pass, every existing galaxy whose
`region_key` has no surviving high-density region is decayed in place — its
`total_mass` and `radius` each multiplied by exactly 0.9, all other fields
unchanged — and no galaxy is ever removed from the managed collection (the
output contains all input galaxies, each at its original position, plus any
newly spawned ones). -/
theorem galaxy_decay_preserved (threshold : ℝ) (region_size : ℕ)
    (spacing : ℝ) (cells : List (UVec3 × Vec3 × ℝ)) (stars : List Vec3)
    (galaxies : List Galaxy) (counter : ℕ) (k : ℕ) (g : Galaxy)
    (hget : galaxies[k]? = some g)
    (hmiss : g.region_key ∉
      (buildRegions threshold region_size cells).map (fun r => r.1)) :
    galaxies.length ≤
      (identify_galaxies threshold region_size spacing cells stars galaxies
        counter).1.length ∧
    (identify_galaxies threshold region_size spacing cells stars galaxies
        counter).1[k]? =
      some { g with
        total_mass := g.total_mass * 0.9
        radius := g.radius * 0.9 } := by
  have hk : k < galaxies.length := by
    by_contra hk
    rw [List.getElem?_eq_none_iff.mpr (by omega)] at hget
    exact Option.noConfusion hget
  have hlen := galaxyUpdatePass_length spacing stars galaxies
    (buildRegions threshold region_size cells)
  constructor
  · rw [identify_galaxies]
    simp only [List.length_append]
    omega
  · have hdecay := galaxyUpdatePass_decay spacing stars galaxies
      (buildRegions threshold region_size cells) k g hget hmiss
    have hout : (identify_galaxies threshold region_size spacing cells stars
        galaxies counter).1 =
        (galaxyUpdatePass spacing stars
          (buildRegions threshold region_size cells) galaxies).1 ++
        (galaxySpawnPass threshold spacing stars
          (galaxyUpdatePass spacing stars
            (buildRegions threshold region_size cells) galaxies).2
          counter).1 := rfl
    rw [hout, List.getElem?_append, if_pos (by omega)]
    exact hdecay

/-- A concrete galaxy used to witness the decay theorem. -/
def stubGalaxy : Galaxy where
  id := 0
  total_mass := 2
  radius := 3
  num_stars := 4
  center := ⟨0, 0, 0⟩
  region_key := ⟨5, 5, 5⟩

/-- Witness for `galaxy_decay_preserved`: a lone galaxy with mass 2 and radius
3 over an empty cell field (no surviving regions) is kept and decays to mass
2 * 0.9 and radius 3 * 0.9. -/
theorem galaxy_decay_preserved_witness :
    ([stubGalaxy][0]? = some stubGalaxy) ∧
    1 ≤ (identify_galaxies 1.2 3 1.4 [] [] [stubGalaxy] 0).1.length ∧
    (identify_galaxies 1.2 3 1.4 [] [] [stubGalaxy] 0).1[0]? =
      some { stubGalaxy with
             total_mass := stubGalaxy.total_mass * 0.9
             radius := stubGalaxy.radius * 0.9 } :=
  ⟨rfl,
    (galaxy_decay_preserved 1.2 3 1.4 [] [] [stubGalaxy] 0 0 stubGalaxy rfl
      (by simp [buildRegions])).1,
    (galaxy_decay_preserved 1.2 3 1.4 [] [] [stubGalaxy] 0 0 stubGalaxy rfl
      (by simp [buildRegions])).2⟩

/-! ## Universe initialization (`src/pru/universe.rs`, `setup_universe`) -/

/-- The random-source interface `setup_universe` consumes (rand's
`StdRng::seed_from_u64` and `Rng::gen_range`), abstracted over the generator's
state type.  `seed_from_u64` builds a state from a seed; `gen_range` draws a
value from a half-open range and advances the state.  Any concrete generator
instantiates this. -/
structure RandomSource (S : Type) where
  seed_from_u64 : ℕ → S
  gen_range : S → ℝ → ℝ → ℝ × S

/-- The per-cell components spawned by `setup_universe`: the `PruCell` fields
(position, grid coordinates, the two locks) and the `PruDynamics` fields
derived there (mass, initial velocity). -/
structure CellBundle where
  position : Vec3
  grid_coords : UVec3
  ua_mass_lock : ℝ
  ub_geom_lock : ℝ
  mass : ℝ
  velocity : Vec3

/-- Model of `setup_universe` (src/pru/universe.rs lines 62-131): a fixed 10×10×10
grid with spacing 1.4; the generator is seeded with the constant 42; for each
cell, in x-outer/y-middle/z-inner order, draw `ua ∈ [0.4, 1.6)`,
`ub ∈ [-1, 1)`, derive `mass = max(ua, 0.05)`, then draw the three velocity
components from `[-0.05, 0.05)`.  The `entropy` argument models whatever
ambient randomness a program run could observe; the code never consults it —
the only generator used is the one seeded from 42. -/
def setup_universe {S : Type} (rand : RandomSource S) (entropy : ℕ) :
    List CellBundle :=
  let spacing : ℝ := 1.4
  let center_offset : Vec3 :=
    ⟨((10 : ℝ) - 1) * 0.5 * spacing, ((10 : ℝ) - 1) * 0.5 * spacing,
      ((10 : ℝ) - 1) * 0.5 * spacing⟩
  let rng0 := rand.seed_from_u64 42
  (((List.range 10).foldl (fun acc (x : ℕ) =>
    (List.range 10).foldl (fun acc (y : ℕ) =>
      (List.range 10).foldl (fun acc (z : ℕ) =>
        let position : Vec3 :=
          (spacing • (⟨(x : ℝ), (y : ℝ), (z : ℝ)⟩ : Vec3)) - center_offset
        let ua := rand.gen_range acc.2 0.4 1.6
        let ub := rand.gen_range ua.2 (-1) 1
        let mass := max ua.1 0.05
        let vx := rand.gen_range ub.2 (-0.05) 0.05
        let vy := rand.gen_range vx.2 (-0.05) 0.05
        let vz := rand.gen_range vy.2 (-0.05) 0.05
        (acc.1 ++ [{ position := position
                     grid_coords := ⟨x, y, z⟩
                     ua_mass_lock := ua.1
                     ub_geom_lock := ub.1
                     mass := mass
                     velocity := ⟨vx.1, vy.1, vz.1⟩ }], vz.2))
        acc)
      acc)
    (([] : List CellBundle), rng0))).1

/-- Claim C10: universe initialization is deterministic — the generator is
seeded with the constant 42 and the ambient entropy of a run is never
consulted, so two runs produce identical cell lists: for every cell the same
position, grid coordinates, mass lock, geometry lock, derived mass and
initial velocity. -/
theorem setup_universe_deterministic {S : Type} (rand : RandomSource S)
    (e1 e2 : ℕ) : setup_universe rand e1 = setup_universe rand e2 := rfl

end

end PRU
